import Mathlib

/-!
Verification of the sqlorm core against its natural-language specification.

The development shallowly embeds the relevant parts of the source:

* `sqlorm/sql.py` — the SQL composition nodes, the parameter collector and
  the insert/update/delete builders;
* `sqlorm/engine.py` — the connection pool, the session/transaction stack
  and the execution hooks;
* `sqlorm/resultset.py` — the composite row reconstructor.

Python dictionaries are modelled as association lists in insertion order,
Python `None` cells as `Option`, raised exceptions as `Except`, and the
unbounded `while` loops of the source as fuel-indexed recursion (the fuel
is always instantiated large enough; running out of fuel is a distinguished
error value that the theorems never hit).
-/

set_option autoImplicit false

namespace Sqlorm

/-! ## Decimal rendering of naturals

Models the Python f-string interpolation of an `int` (`f":{name}"`,
`f"{name}_{i}"`): base-10 digits, most significant first. -/

/-- Little-endian base-10 digits of `n`; the fuel is only there to make the
recursion structural and is sufficient whenever `n ≤ fuel`. -/
def decDigitsAux : Nat → Nat → List Nat
  | 0, n => [n]
  | fuel + 1, n => if n < 10 then [n] else n % 10 :: decDigitsAux fuel (n / 10)

/-- Little-endian base-10 digits of `n`. -/
def decDigits (n : Nat) : List Nat :=
  decDigitsAux n n

/-- Rebuild a natural from little-endian base-10 digits. -/
def ofDigs : List Nat → Nat
  | [] => 0
  | d :: ds => d + 10 * ofDigs ds

/-- The character for one decimal digit. -/
def digitChar : Nat → Char
  | 0 => Char.ofNat 48
  | 1 => Char.ofNat 49
  | 2 => Char.ofNat 50
  | 3 => Char.ofNat 51
  | 4 => Char.ofNat 52
  | 5 => Char.ofNat 53
  | 6 => Char.ofNat 54
  | 7 => Char.ofNat 55
  | 8 => Char.ofNat 56
  | _ => Char.ofNat 57

/-- Decimal string of a natural, as Python `str` renders an `int`. -/
def natDec (n : Nat) : String :=
  String.mk ((decDigits n).reverse.map digitChar)

/-- Numeric value of the digit character, the inverse of `digitChar`. -/
def digitVal (c : Char) : Nat :=
  c.toNat - 48






/-! ## sql.py — parameter formatting and the parameter collector -/

/-- The DBAPI placeholder dialects accepted by `format_param`. -/
inductive Paramstyle where
  | qmark
  | format
  | numeric
  | named
  | pyformat
  deriving DecidableEq

/-- The `name` argument of `format_param`: Python passes `None`, an `int`
(the 1-based position, in the positional styles) or a `str`. -/
inductive PName where
  | noneName
  | numName (n : Nat)
  | strName (s : String)
  deriving DecidableEq

/-- Python string interpolation of a `name` that is an int or a str
(the `None` default is chosen by `format_param` per style). -/
def PName.interp : PName → String
  | .noneName => ""
  | .numName n => natDec n
  | .strName s => s

/-- Embeds `format_param(name, paramstyle)` of sql.py: the placeholder text
for one parameter. -/
def format_param (name : PName) (paramstyle : Paramstyle) : String :=
  match paramstyle with
  | .qmark => "?"
  | .format => "%s"
  | .numeric =>
    -- `if name is None: name = 0`
    let name := if name = .noneName then .numName 0 else name
    ":" ++ name.interp
  | .named =>
    let name := if name = .noneName then .strName "param" else name
    ":" ++ name.interp
  | .pyformat =>
    let name := if name = .noneName then .strName "param" else name
    "%(" ++ name.interp ++ ")s"

/-- Whether a paramstyle stores parameters in an ordered list
(`self.values = []` branch of `ParameterCollector.__init__`). -/
def Paramstyle.positional : Paramstyle → Bool
  | .qmark => true
  | .numeric => true
  | .format => true
  | .named => false
  | .pyformat => false

/-- Embeds `ParameterCollector`: `names` is `self.names`; `listValues`
plays `self.values` when it is a list (positional styles) and `dictValues`
plays it when it is a dict (named styles, insertion order kept). -/
structure ParameterCollector (V : Type) where
  paramstyle : Paramstyle
  names : List String
  listValues : List V
  dictValues : List (String × V)

/-- A fresh collector (`ParameterCollector()` with no pre-seeded params). -/
def ParameterCollector.fresh (V : Type) (paramstyle : Paramstyle) : ParameterCollector V :=
  ⟨paramstyle, [], [], []⟩

/-- A collector pre-seeded with positional params, as built by
`render(stmt, params)` for a list of params (names become `param_1`, ...). -/
def ParameterCollector.seeded (V : Type) (paramstyle : Paramstyle) (params : Option (List V)) :
    ParameterCollector V :=
  match params with
  | none => .fresh V paramstyle
  | some vs =>
    ⟨paramstyle, (List.range vs.length).map (fun i => "param_" ++ natDec (i + 1)), vs, []⟩

/-- The candidate collision-suffix name `f"{name}_{i}"`. -/
def suffixName (base : String) (i : Nat) : String :=
  base ++ "_" ++ natDec i

/-- The `while f"{name}_{i}" in self.names: i += 1` search of
`ParameterCollector.add`, made structural with fuel. -/
def findSuffix (base : String) (names : List String) : Nat → Nat → Nat
  | i, 0 => i
  | i, fuel + 1 => if suffixName base i ∈ names then findSuffix base names (i + 1) fuel else i

/-- The collision-free name picked by `ParameterCollector.add` when the
requested name is falsy or already taken: starts at suffix `_1`. -/
def freshName (base : String) (names : List String) : String :=
  suffixName base (findSuffix base names 1 (names.length + 1))

/-- Embeds `ParameterCollector.add(value, name)`: returns the formatted
placeholder together with the updated collector. -/
def ParameterCollector.add {V : Type} (pc : ParameterCollector V) (value : V)
    (name : Option String) : String × ParameterCollector V :=
  -- `if not name or name in self.names:` — Python treats None and "" as falsy
  let base := name.getD ""
  let chosen :=
    if base = "" ∨ base ∈ pc.names then
      freshName (if base = "" then "param" else base) pc.names
    else base
  let names := pc.names ++ [chosen]
  if pc.paramstyle.positional then
    -- `self.values.append(value); name = len(self.values)`
    let values := pc.listValues ++ [value]
    (format_param (.numName values.length) pc.paramstyle,
      { pc with names := names, listValues := values })
  else
    (format_param (.strName chosen) pc.paramstyle,
      { pc with names := names, dictValues := pc.dictValues ++ [(chosen, value)] })



/-! ## sql.py — the SQL node tree and its renderer

`SqlNode` embeds the `SQLStr` class tree of sql.py. A non-`SQLStr` part of
`SQL.parts` is embedded as `raw` holding its `str()` rendering (all such
parts in the claims are strings). `sqlList` embeds `List(items, joinstr,
startstr, endstr)`; `And`, `Or` and `Tuple` are instances of it. -/

inductive SqlNode (V : Type) where
  | raw (s : String)
  | param (value : V) (name : Option String)
  | placeholder (name : String)
  | ident (name : String) (aliasName : Option String)
  | sql (parts : List (SqlNode V))
  | sqlList (items : List (SqlNode V)) (joinstr : String) (startstr : String) (endstr : String)

/-- Renders each part in order, threading the collector left to right, as
the `for part in self.parts` loop of `SQL._render` does. -/
def renderParts {V : Type} (f : SqlNode V → ParameterCollector V → String × ParameterCollector V) :
    List (SqlNode V) → ParameterCollector V → List String × ParameterCollector V
  | [], pc => ([], pc)
  | p :: ps, pc =>
    let r := f p pc
    let rest := renderParts f ps r.2
    (r.1 :: rest.1, rest.2)

/-- Embeds `" ".join(filter(bool, stmt))` of `SQL._render`. -/
def joinStrs (ss : List String) : String :=
  String.intercalate " " (ss.filter (fun s => s ≠ ""))

/-- Interleaves the join string between consecutive items, as the
`if i + 1 < len(self)` test of `List._render` does. -/
def interleaveJoin (joinstr : String) : List String → List String
  | [] => []
  | [s] => [s]
  | s :: rest => s :: joinstr :: interleaveJoin joinstr rest

/-- The part strings assembled by `List._render`: the start string when
truthy, the items interleaved with the join string, the end string when
truthy. -/
def wrapListStrs (ss : List String) (joinstr startstr endstr : String) : List String :=
  (if startstr = "" then [] else [startstr]) ++ interleaveJoin joinstr ss ++
    (if endstr = "" then [] else [endstr])

/-- Embeds `_render`: renders a node to its statement text against a
parameter collector. The fuel bounds the tree depth and is irrelevant as
soon as it exceeds it. -/
def render1 {V : Type} : Nat → SqlNode V → ParameterCollector V → String × ParameterCollector V
  | 0, _, pc => ("", pc)
  | fuel + 1, node, pc =>
    match node with
    | .raw s => (s, pc)
    | .param v name => pc.add v name
    | .placeholder name => (format_param (.strName name) pc.paramstyle, pc)
    | .ident name aliasName =>
      (match aliasName with
       | some a => name ++ " AS " ++ a
       | none => name, pc)
    | .sql parts =>
      let r := renderParts (render1 fuel) parts pc
      (joinStrs r.1, r.2)
    | .sqlList items joinstr startstr endstr =>
      let r := renderParts (render1 fuel) items pc
      (joinStrs (wrapListStrs r.1 joinstr startstr endstr), r.2)

/-- Embeds `SQLStr.render()`: render with a fresh qmark collector and
return the statement text with the collected positional values. -/
def SqlNode.render {V : Type} (fuel : Nat) (n : SqlNode V) : String × List V :=
  let r := render1 fuel n (ParameterCollector.fresh V .qmark)
  (r.1, r.2.listValues)

/-- Embeds `SQLStr.op(operator, other)`: the right operand becomes a
`Parameter` node unless it already is an SQL node. -/
def SQLStr.op {V : Type} (a : SqlNode V) (operator : String) (other : V ⊕ SqlNode V) : SqlNode V :=
  .sql [a, .raw operator,
    match other with
    | .inl v => .param v none
    | .inr n => n]

/-- Embeds `And(items)`. -/
def SqlAnd {V : Type} (items : List (SqlNode V)) : SqlNode V :=
  .sqlList items "AND" "(" ")"

/-- Embeds `Or(items)`. -/
def SqlOr {V : Type} (items : List (SqlNode V)) : SqlNode V :=
  .sqlList items "OR" "(" ")"

/-- Embeds `Tuple(items)`. -/
def SqlTuple {V : Type} (items : List (SqlNode V)) : SqlNode V :=
  .sqlList items "," "(" ")"

/-- Embeds `List(items)` with the default separators. -/
def SqlListNode {V : Type} (items : List (SqlNode V)) : SqlNode V :=
  .sqlList items "," "" ""

/-- Python truthiness of an SQL node: `And`, `Or`, `Tuple` and `List`
subclass `list`, so they are falsy exactly when they hold no items; the
other node classes define no `__len__`/`__bool__` and are always truthy. -/
def SqlNode.truthy {V : Type} : SqlNode V → Bool
  | .sqlList items _ _ _ => !items.isEmpty
  | _ => true

/-- Embeds the `query.where(cond)` builder step (`SQL.__getattr__`):
appends the upper-cased keyword and the condition to the part list. -/
def SqlNode.where_ {V : Type} (s : SqlNode V) (cond : SqlNode V) : SqlNode V :=
  match s with
  | .sql parts => .sql (parts ++ [.raw "WHERE", cond])
  | other => .sql [other, .raw "WHERE", cond]

/-- Embeds the conditional composition idiom `if cond: stmt = stmt.where(cond)`
(as in `Model.find_all`). -/
def whereIfTruthy {V : Type} (s : SqlNode V) (cond : SqlNode V) : SqlNode V :=
  if cond.truthy then s.where_ cond else s

/-! ## sql.py — insert/update/delete builders -/

/-- The `values` argument of `SQL.insert`: a name-to-value mapping whose
values are raw values or SQL nodes, or a statement (`str`/`SQLStr`). -/
inductive InsertValues (V : Type) where
  | vals (kvs : List (String × (V ⊕ SqlNode V)))
  | stmt (s : SqlNode V)

/-- Embeds `SQL.insert(table, values)`: an empty mapping yields the
`DEFAULT VALUES` form, a statement is spliced raw, and otherwise each
value becomes a named `Parameter` unless it is already an SQL node. -/
def SQL.insert {V : Type} (table : String) (values : InsertValues V) : SqlNode V :=
  match values with
  | .vals [] => .sql [.raw "INSERT INTO", .raw table, .raw "DEFAULT VALUES"]
  | .stmt s => .sql [.raw "INSERT INTO", .raw table, s]
  | .vals kvs =>
    .sql [.raw "INSERT INTO", .raw table,
      SqlTuple (kvs.map (fun kv => .raw kv.1)), .raw "VALUES",
      SqlTuple (kvs.map (fun kv =>
        match kv.2 with
        | .inl v => .param v (some kv.1)
        | .inr n => n))]

/-- Embeds `SQL.update(table, values)` (`values=None` gives the bare
`UPDATE table` prefix). -/
def SQL.update {V : Type} (table : String)
    (values : Option (List (String × (V ⊕ SqlNode V)))) : SqlNode V :=
  match values with
  | none => .sql [.raw "UPDATE", .raw table]
  | some kvs =>
    .sql [.raw "UPDATE", .raw table, .raw "SET",
      SqlListNode (kvs.map (fun kv =>
        .sql [.raw kv.1, .raw "=",
          match kv.2 with
          | .inl v => .param v (some kv.1)
          | .inr n => n]))]

/-- Embeds `SQL.delete_from(table)`. -/
def SQL.delete_from {V : Type} (table : String) : SqlNode V :=
  .sql [.raw "DELETE FROM", .raw table]

/-- Embeds `Mapper.insert`: always builds `SQL.insert` over the dehydrated
values (the dehydration result is taken as input here). -/
def Mapper.insert {V : Type} (table : String)
    (values : List (String × (V ⊕ SqlNode V))) : SqlNode V :=
  SQL.insert table (.vals values)

/-- Embeds `Mapper.update`: `if not values: return` yields no statement at
all for an empty mapping; otherwise the `UPDATE ... SET ... WHERE pk`
statement (the primary-key condition is taken as input). -/
def Mapper.update {V : Type} (table : String)
    (values : List (String × (V ⊕ SqlNode V))) (pkCond : SqlNode V) : Option (SqlNode V) :=
  match values with
  | [] => none
  | kvs => some ((SQL.update table (some kvs)).where_ pkCond)

/-- Embeds `Mapper.delete`: `if not pk: return` yields no statement when
the object has no (truthy) primary key value. -/
def Mapper.delete {V : Type} (table : String) (pk : Option V) (pkCond : SqlNode V) :
    Option (SqlNode V) :=
  match pk with
  | none => none
  | some _ => some ((SQL.delete_from table).where_ pkCond)

/-! ## engine.py — connection pool

Connections are identified by naturals; `counter` is the id the next
`connection_factory` call hands out, so a run that creates no new physical
connection leaves it unchanged. `pool = none` embeds `pool = False`
(pooling disabled); `max_pool_conns = 0` embeds the 0/None unbounded cap. -/

structure Engine where
  pool : Option (List Nat)
  active_conns : List Nat
  max_pool_conns : Nat
  counter : Nat
  deriving DecidableEq

/-- The error kinds raised by `Engine.connect` / `Engine.disconnect`. -/
inductive EngineError where
  | maxConnectionsReached
  | notPartOfPool
  deriving DecidableEq

/-- A fresh engine as `Engine.__init__` builds it. -/
def Engine.make (pooling : Bool) (max_pool_conns : Nat) : Engine :=
  ⟨if pooling then some [] else none, [], max_pool_conns, 0⟩

/-- Embeds `Engine._connect`: ask the connection factory for a new
physical connection. -/
def Engine.connectRaw (e : Engine) : Nat × Engine :=
  (e.counter, { e with counter := e.counter + 1 })

/-- Embeds `Engine.connect(from_pool=True)`. -/
def Engine.connect (e : Engine) (from_pool : Bool) : Except EngineError (Nat × Engine) :=
  match e.pool with
  | none => .ok e.connectRaw
  | some pool =>
    if from_pool = false then .ok e.connectRaw
    else
      match pool with
      | conn :: rest =>
        -- `conn = self.pool.pop(0)` then `self.active_conns.append(conn)`
        .ok (conn, { e with pool := some rest, active_conns := e.active_conns ++ [conn] })
      | [] =>
        if e.max_pool_conns = 0 ∨ e.active_conns.length < e.max_pool_conns then
          let r := e.connectRaw
          .ok (r.1, { r.2 with active_conns := r.2.active_conns ++ [r.1] })
        else .error .maxConnectionsReached

/-- Embeds `Engine.disconnect(conn, force=False)`; a forced or poolless
disconnect physically closes the connection without touching the pool. -/
def Engine.disconnect (e : Engine) (conn : Nat) (force : Bool) : Except EngineError Engine :=
  match e.pool with
  | none => .ok e
  | some pool =>
    if force then .ok e
    else if conn ∈ e.active_conns then
      .ok { e with active_conns := e.active_conns.erase conn, pool := some (pool ++ [conn]) }
    else .error .notPartOfPool

/-! ## engine.py — signals and the session/transaction stack -/

/-- The combined return value a blinker send produces for one receiver, as
`_signal_rv` classifies it: `None`, `False`, a tuple (substituted
statement and parameters, of payload type `T`) or some other truthy value
(identified by a numeral). -/
inductive SigRV (T : Type) where
  | retNone
  | retFalse
  | retTuple (t : T)
  | retValue (n : Nat)

/-- The `final_rv` loop of `_signal_rv`. -/
def signal_rv_go {T : Type} (acc : SigRV T) : List (SigRV T) → SigRV T
  | [] => acc
  | rv :: rest =>
    match rv with
    | .retFalse => .retFalse
    | .retNone => signal_rv_go acc rest
    | other => signal_rv_go other rest

/-- Embeds `_signal_rv(signal_rv)`: the first `False` wins immediately,
otherwise the last truthy receiver return value (or `None`). -/
def signal_rv {T : Type} (rvs : List (SigRV T)) : SigRV T :=
  signal_rv_go .retNone rvs

/-- The physical operations a session performs on its DBAPI connection. -/
inductive PhysOp where
  | commitOp
  | rollbackOp
  | closeConnOp
  deriving DecidableEq

/-- Embeds the `Transaction` object state. -/
structure Transaction where
  virtual : Bool
  ended : Bool
  deriving DecidableEq

/-- Embeds the `Session` object state (the underlying engine and loggers
are irrelevant to the claims and omitted; the connection is its id). -/
structure Session where
  conn : Option Nat
  auto_close_conn : Bool
  virtual_tx : Bool
  transactions : List Transaction
  ended : Bool
  deriving DecidableEq

/-- The error kinds of the session/transaction layer. -/
inductive SessionErrorKind where
  | sessionEnded
  | transactionEnded
  deriving DecidableEq

/-- Embeds `Session.__init__(dbapi_conn, auto_close_conn, virtual_tx)` for
a session with an externally supplied connection: `auto_close_conn`
defaults to `not bool(dbapi_conn)`. -/
def Session.make (dbapi_conn : Option Nat) (auto_close_conn : Option Bool)
    (virtual_tx : Bool) : Session :=
  ⟨dbapi_conn, auto_close_conn.getD dbapi_conn.isNone, virtual_tx, [], false⟩

/-- Embeds `Session.commit` with the combined `before_commit` receiver
verdict as input (`beforeFalse` is whether `_signal_rv(...) is False`):
returns the physical operations performed. -/
def Session.commit (s : Session) (beforeFalse : Bool) : Except SessionErrorKind (List PhysOp) :=
  if s.ended then .error .sessionEnded
  else if s.conn.isNone then .ok []
  else if beforeFalse then .ok []
  else .ok [.commitOp]

/-- Embeds `Session.rollback`, analogously to `Session.commit`. -/
def Session.rollback (s : Session) (beforeFalse : Bool) : Except SessionErrorKind (List PhysOp) :=
  if s.ended then .error .sessionEnded
  else if s.conn.isNone then .ok []
  else if beforeFalse then .ok []
  else .ok [.rollbackOp]

/-- Embeds `Session.close`: rollback first (its errors propagate), release
the connection only under `auto_close_conn`, then mark the session ended. -/
def Session.close (s : Session) (beforeRollbackFalse : Bool) :
    Except SessionErrorKind (Session × List PhysOp) :=
  match s.conn with
  | none => .ok ({ s with ended := true }, [])
  | some _ =>
    match s.rollback beforeRollbackFalse with
    | .error e => .error e
    | .ok ops =>
      if s.auto_close_conn then
        .ok ({ s with conn := none, ended := true }, ops ++ [.closeConnOp])
      else
        .ok ({ s with ended := true }, ops)

/-- Embeds `Session.__enter__(virtual=False)`: pushes a transaction whose
virtual flag is forced on whenever the stack is already non-empty or the
session itself is virtual. -/
def Session.enter (s : Session) (virtual : Bool) :
    Except SessionErrorKind (Transaction × Session) :=
  if s.ended then .error .sessionEnded
  else
    let v := virtual || s.virtual_tx || !s.transactions.isEmpty
    let tx : Transaction := ⟨v, false⟩
    .ok (tx, { s with transactions := s.transactions ++ [tx] })

/-- Embeds `Transaction.commit`: only a non-virtual transaction reaches
`Session.commit`; the transaction is marked ended either way. -/
def Transaction.commit (tx : Transaction) (s : Session) (beforeFalse : Bool) :
    Except SessionErrorKind (Transaction × List PhysOp) :=
  if tx.ended then .error .transactionEnded
  else if tx.virtual then .ok ({ tx with ended := true }, [])
  else
    match s.commit beforeFalse with
    | .error e => .error e
    | .ok ops => .ok ({ tx with ended := true }, ops)

/-- Embeds `Transaction.rollback`, analogously to `Transaction.commit`. -/
def Transaction.rollback (tx : Transaction) (s : Session) (beforeFalse : Bool) :
    Except SessionErrorKind (Transaction × List PhysOp) :=
  if tx.ended then .error .transactionEnded
  else if tx.virtual then .ok ({ tx with ended := true }, [])
  else
    match s.rollback beforeFalse with
    | .error e => .error e
    | .ok ops => .ok ({ tx with ended := true }, ops)

/-! ## engine.py — statement execution and the before-execute hook -/

/-- What `Transaction.cursor` produces: a bare cursor (no statement), a
short-circuited hook return value, or a cursor on which the statement text
was executed with the given parameters. -/
inductive CursorResult (V : Type) where
  | plain
  | sentinel (n : Nat)
  | executed (stmt : String) (params : List V)

/-- Whether a cursor call ended with the statement actually executed
against the driver. -/
def cursorExecuted {V : Type} : Except SessionErrorKind (CursorResult V) → Bool
  | .ok (.executed _ _) => true
  | _ => false

/-- Embeds `render(stmt, params)` as `Transaction.cursor` calls it: no
dbapi and list (or absent) params select the qmark style, the collector is
pre-seeded with the params. -/
def renderForCursor {V : Type} (fuel : Nat) (stmt : SqlNode V) (params : Option (List V)) :
    String × List V :=
  let pc := ParameterCollector.seeded V .qmark params
  let r := render1 fuel stmt pc
  (r.1, r.2.listValues)

/-- Embeds `Transaction.cursor(stmt, params)` up to the driver boundary
(the driver `execute` is taken to succeed; the `handle_error` hook is then
never consulted). The `before_execute` receivers are an input. -/
def Transaction.cursor {V : Type} (fuel : Nat) (txEnded : Bool) (stmt : Option (SqlNode V))
    (params : Option (List V)) (hooks : List (SigRV (String × List V))) :
    Except SessionErrorKind (CursorResult V) :=
  if txEnded then .error .transactionEnded
  else
    match stmt with
    | none => .ok .plain
    | some stmtNode =>
      let r := renderForCursor fuel stmtNode params
      match signal_rv hooks with
      | .retTuple t => .ok (.executed t.1 t.2)
      | .retValue n => .ok (.sentinel n)
      -- `elif rv:` — both None and False fall through to execution
      | .retNone => .ok (.executed r.1 r.2)
      | .retFalse => .ok (.executed r.1 r.2)

/-- Embeds `Transaction.executemany(stmt, seq_of_parameters)`: `none`
means the call returned without executing (`elif rv is False: return`);
the ended check only happens on the `self.cursor()` call after the hook. -/
def Transaction.executemany {V : Type} (txEnded : Bool) (stmt : String)
    (seq_of_parameters : List (List V)) (hooks : List (SigRV (String × List (List V)))) :
    Except SessionErrorKind (Option (String × List (List V))) :=
  let proceed : String → List (List V) → Except SessionErrorKind (Option (String × List (List V))) :=
    fun s q => if txEnded then .error .transactionEnded else .ok (some (s, q))
  match signal_rv hooks with
  | .retTuple t => proceed t.1 t.2
  | .retFalse => .ok none
  | .retNone => proceed stmt seq_of_parameters
  | .retValue _ => proceed stmt seq_of_parameters

/-! ## resultset.py — rows, the column splitter and the composition map

Cursor rows are association lists from column name to cell; a `none` cell
embeds SQL NULL (Python `None`). The exceptions the Python code can raise
while reconstructing are collected in `PyErr`. -/

/-- A database cell value. -/
inductive PyVal where
  | int (n : Int)
  | str (s : String)
  deriving DecidableEq

/-- A cell: `none` is SQL NULL. -/
abbrev Cell := Option PyVal

/-- A physical cursor row in column order. -/
abbrev Row := List (String × Cell)

/-- The Python exceptions the reconstructor can raise, plus the
fuel-exhaustion marker of the embedding (never hit by the theorems). -/
inductive PyErr where
  | keyError (k : String)
  | typeError
  | indexError
  | fuelOut
  deriving DecidableEq

/-- Ordered-dictionary lookup (first match). -/
def alookup {β : Type} (k : String) : List (String × β) → Option β
  | [] => none
  | kv :: rest => if kv.1 = k then some kv.2 else alookup k rest

/-- Splits a character list at the first occurrence of the separator, as
Python `col.split(separator, 1)` does; `none` when the separator does not
occur (`separator not in col`). -/
def splitOnceChars (sep : List Char) : List Char → Option (List Char × List Char)
  | [] => none
  | c :: rest =>
    if sep.isPrefixOf (c :: rest) then some ([], (c :: rest).drop sep.length)
    else (splitOnceChars sep rest).map (fun p => (c :: p.1, p.2))

/-- `col.split(separator, 1)` on strings. -/
def splitColName (sep col : String) : Option (String × String) :=
  (splitOnceChars sep.data col.data).map (fun p => (String.mk p.1, String.mk p.2))

/-- Appends one trimmed column to its nested group, creating the group at
the end on first sight (`nested.setdefault(key, {})[col] = value`). -/
def addGroup (k : String) (entry : String × Cell) : List (String × Row) → List (String × Row)
  | [] => [(k, [entry])]
  | (k', g) :: rest =>
    if k' = k then (k', g ++ [entry]) :: rest else (k', g) :: addGroup k entry rest

/-- The splitting loop of `split_composite_row`: separator-free columns
stay in the self row, the others are grouped by their first prefix. -/
def groupRowGo (sep : String) : Row → Row → List (String × Row) → Row × List (String × Row)
  | [], selfAcc, groups => (selfAcc, groups)
  | (col, v) :: rest, selfAcc, groups =>
    match splitColName sep col with
    | none => groupRowGo sep rest (selfAcc ++ [(col, v)]) groups
    | some kc => groupRowGo sep rest selfAcc (addGroup kc.1 (kc.2, v) groups)

/-- One level of column splitting. -/
def groupRow (sep : String) (row : Row) : Row × List (String × Row) :=
  groupRowGo sep row [] []

/-- Whether every cell of a nested group is NULL
(`all(nested[key][k] is None for k in nested[key])`). -/
def rowAllNull (g : Row) : Bool :=
  g.all (fun kv => kv.2.isNone)

/-- The result of `split_composite_row`: the self row and the nested
groups, where an all-NULL group is `none`. -/
inductive SplitRes where
  | mk (selfRow : Row) (groups : List (String × Option SplitRes))

/-- The self part of a split result. -/
def SplitRes.selfRow : SplitRes → Row
  | .mk r _ => r

/-- The nested groups of a split result. -/
def SplitRes.groups : SplitRes → List (String × Option SplitRes)
  | .mk _ g => g

/-- Embeds `split_composite_row(row, separator)`: recursively splits the
grouped columns; an all-NULL group becomes `none`. The fuel bounds the
nesting depth of the column names. -/
def split_composite_row (sep : String) : Nat → Row → SplitRes
  | 0, row => .mk row []
  | fuel + 1, row =>
    let p := groupRow sep row
    .mk p.1 (p.2.map (fun kg =>
      (kg.1, if rowAllNull kg.2 then none else some (split_composite_row sep fuel kg.2))))

/-- Embeds `CompositionMap(loader, nested, rowid, single)`; the loader is
a row transformer (absent on every map of the claims). -/
inductive CMap where
  | mk (loader : Option (List (String × Cell) → List (String × Cell)))
      (nested : List (String × CMap)) (rowid : Option String) (single : Bool)

/-- The loader of a composition map. Loaders transform the compiled row;
they are typed on `OutRow` below, so the raw `Row`-level loader stored
here is only used on the composition-free fast path. -/
def CMap.loader : CMap → Option (Row → Row)
  | .mk l _ _ _ => l

/-- The child maps. -/
def CMap.nested : CMap → List (String × CMap)
  | .mk _ n _ _ => n

/-- The rowid column. -/
def CMap.rowid : CMap → Option String
  | .mk _ _ r _ => r

/-- The single flag. -/
def CMap.single : CMap → Bool
  | .mk _ _ _ s => s

/-- Embeds `CompositionMap.get(k)` for a single path segment: the child
map, or a fresh empty `CompositionMap()` when the key is unmapped. -/
def CMap.get (m : CMap) (k : String) : CMap :=
  match alookup k m.nested with
  | some child => child
  | none => .mk none [] none false

/-! ## resultset.py — composite rows, merge and compile -/

/-- The identity of a composite row: `noneId` embeds Python `None` (never
merges), `trueId` embeds the `True` sentinel (always merges), `valId`
embeds the rowid cell value. The `hash(row)` fallback raises `TypeError`
in this code (dicts are unhashable) and is embedded as that error. -/
inductive RowId where
  | noneId
  | trueId
  | valId (v : PyVal)
  deriving DecidableEq

/-- Embeds the Python test `self.id != True`. Because Python booleans are
ints, `1 != True` is `False`: an id whose value is the integer 1 is
indistinguishable from the `True` sentinel. -/
def idNeTrue : RowId → Bool
  | .trueId => false
  | .valId (.int 1) => false
  | _ => true

/-- Embeds Python `==` on row identities, including `True == 1`. -/
def idEqPy : RowId → RowId → Bool
  | .noneId, .noneId => true
  | .trueId, .trueId => true
  | .trueId, .valId (.int 1) => true
  | .valId (.int 1), .trueId => true
  | .valId a, .valId b => a = b
  | _, _ => false

/-- A compiled value: a plain cell, a list of compiled children, or a
single compiled child (under a `single` map). -/
inductive OutVal where
  | cell (c : Cell)
  | many (rs : List (List (String × OutVal)))
  | one (r : List (String × OutVal))

/-- A compiled logical row. -/
abbrev OutRow := List (String × OutVal)

/-- Dictionary assignment `row[k] = v`: overwrite in place, or append. -/
def setKey (out : OutRow) (k : String) (v : OutVal) : OutRow :=
  match out with
  | [] => [(k, v)]
  | kv :: rest => if kv.1 = k then (k, v) :: rest else kv :: setKey rest k v

/-- Embeds the `CompositeRow` object: its map, self row, `is_composite`
flag, identity and nested children lists. -/
inductive CRow where
  | mk (cmap : CMap) (row : Row) (is_composite : Bool) (idVal : RowId)
      (nested : List (String × List CRow))

/-- The composition map of a composite row. -/
def CRow.cmap : CRow → CMap
  | .mk m _ _ _ _ => m

/-- The self cells of a composite row. -/
def CRow.row : CRow → Row
  | .mk _ r _ _ _ => r

/-- The `is_composite` flag. -/
def CRow.is_composite : CRow → Bool
  | .mk _ _ c _ _ => c

/-- The identity. -/
def CRow.idVal : CRow → RowId
  | .mk _ _ _ i _ => i

/-- The nested children lists. -/
def CRow.nested : CRow → List (String × List CRow)
  | .mk _ _ _ _ n => n

/-- Replaces the nested children lists (the in-place mutation of merge). -/
def CRow.withNested (c : CRow) (n : List (String × List CRow)) : CRow :=
  match c with
  | .mk m r comp i _ => .mk m r comp i n

/-- Builds the children lists of a fresh `CompositeRow`: all-NULL groups
are skipped, the others start as singleton lists. -/
def makeChildren (f : CMap → SplitRes → Except PyErr CRow) (m : CMap) :
    List (String × Option SplitRes) → Except PyErr (List (String × List CRow))
  | [] => .ok []
  | (_, none) :: rest => makeChildren f m rest
  | (k, some sr) :: rest =>
    match f (m.get k) sr with
    | .error e => .error e
    | .ok child =>
      match makeChildren f m rest with
      | .error e => .error e
      | .ok l => .ok ((k, [child]) :: l)

/-- Embeds `CompositeRow.__init__` on an already split row: computes the
`is_composite` flag, the identity (a missing rowid column raises
`KeyError`; a falsy rowid falls back to `hash(row)`, which raises
`TypeError` on a dict) and the nested children. A callable rowid is not
modelled (no claim uses one). -/
def CRow.make : Nat → CMap → SplitRes → Except PyErr CRow
  | 0, _, _ => .error .fuelOut
  | fuel + 1, m, sr =>
    let row := sr.selfRow
    let isComposite := !sr.groups.isEmpty
    let idRes : Except PyErr RowId :=
      if row.isEmpty && isComposite then .ok .trueId
      else if isComposite then
        match m.rowid with
        | some rid =>
          if rid = "" then .error .typeError
          else
            match alookup rid row with
            | none => .error (.keyError rid)
            | some cell =>
              .ok (match cell with
                | none => .noneId
                | some v => .valId v)
        | none => .error .typeError
      else .ok .noneId
    match idRes with
    | .error e => .error e
    | .ok idv =>
      match makeChildren (CRow.make fuel) m sr.groups with
      | .error e => .error e
      | .ok children => .ok (.mk m row isComposite idv children)

/-- The value `CompositeRow.merge` returns: Python `False` on an identity
mismatch, or Python `None` after the success path mutated `self` (the
mutated row is carried along). -/
inductive MergeRet where
  | retFalse
  | retNone (merged : CRow)

/-- Python truthiness of the merge return value: both `False` and `None`
are falsy. -/
def MergeRet.toBool : MergeRet → Bool
  | _ => false

/-- The row the pending candidate has become after a merge attempt. -/
def MergeRet.carrier (ret : MergeRet) (dflt : CRow) : CRow :=
  match ret with
  | .retFalse => dflt
  | .retNone merged => merged

/-- The `for k, rows in self.nested.items()` loop of merge: looks the
group up on the new row (`KeyError` when its all-NULL group was dropped),
merges the last child with the new child and appends. Because the merge
return value is always falsy, the append happens on success too. -/
def mergeNestedGo (f : CRow → CRow → Except PyErr MergeRet)
    (otherNested : List (String × List CRow)) :
    List (String × List CRow) → Except PyErr (List (String × List CRow))
  | [] => .ok []
  | (k, rows) :: rest =>
    match alookup k otherNested with
    | none => .error (.keyError k)
    | some otherRows =>
      match otherRows.getLast? with
      | none => .error .indexError
      | some otherLast =>
        match rows.getLast? with
        | none => .error .indexError
        | some lastRow =>
          match f lastRow otherLast with
          | .error e => .error e
          | .ok ret =>
            let rowsAfter := match ret with
              | .retFalse => rows
              | .retNone merged => rows.dropLast ++ [merged]
            let rowsFinal := if ret.toBool then rowsAfter else rowsAfter ++ [otherLast]
            match mergeNestedGo f otherNested rest with
            | .error e => .error e
            | .ok l => .ok ((k, rowsFinal) :: l)

/-- Embeds `CompositeRow.merge(other)`: `False` when the identity is
`None` or differs (under Python equality, where an id of 1 equals the
`True` sentinel); otherwise the success path merges the nested groups and
returns `None`. -/
def CRow.merge : Nat → CRow → CRow → Except PyErr MergeRet
  | 0, _, _ => .error .fuelOut
  | fuel + 1, self, other =>
    if self.idVal = .noneId then .ok .retFalse
    else if idNeTrue self.idVal && !idEqPy other.idVal self.idVal then .ok .retFalse
    else
      match mergeNestedGo (CRow.merge fuel) other.nested self.nested with
      | .error e => .error e
      | .ok newNested => .ok (.retNone (self.withNested newNested))

/-- Converts a raw row to a compiled row of plain cells. -/
def rowToOut (r : Row) : OutRow :=
  r.map (fun kv => (kv.1, OutVal.cell kv.2))

/-- The `for k, rows in self.nested.items()` loop of compile: stores the
compiled children under the group key, unwrapping a non-empty list under a
`single` map. -/
def compileNested (f : CRow → OutRow) (m : CMap) :
    List (String × List CRow) → OutRow → OutRow
  | [], out => out
  | (k, rows) :: rest, out =>
    let vals := rows.map f
    let v := if (m.get k).single && !vals.isEmpty then OutVal.one (vals.headD [])
      else OutVal.many vals
    compileNested f m rest (setKey out k v)

/-- Embeds `CompositeRow.compile(with_loader)`; the map loaders of the
claims are absent, so the loader application on the compiled row is a
no-op here (children are compiled with `with_loader=True` as in the
source). -/
def CRow.compile : Nat → Bool → CRow → OutRow
  | 0, _, _ => []
  | fuel + 1, _, c =>
    compileNested (CRow.compile fuel true) c.cmap c.nested (rowToOut c.row)

/-! ## resultset.py — the fetch loop of CompositeResultSet -/

/-- The mutable state of a `CompositeResultSet`: the rows the cursor still
holds, whether the cursor is open, the pending candidate and the
pass-through optimization flag. -/
structure RState where
  rows : List Row
  cursorOpen : Bool
  current : Option CRow
  disable_composition : Bool

/-- The state of a freshly created result set over a cursor. -/
def RState.init (rows : List Row) : RState :=
  ⟨rows, true, none, false⟩

/-- Applies the map loader on the pass-through path
(`self.map.loader(row) if with_loader and self.map.loader else row`). -/
def applyMapLoader (m : CMap) (withLoader : Bool) (r : Row) : OutRow :=
  match withLoader, m.loader with
  | true, some f => rowToOut (f r)
  | _, _ => rowToOut r

/-- The `while True` body of `CompositeResultSet.fetch`; the loop fuel is
one more than the number of rows left, which the loop can never exceed. -/
def fetchLoop (fuel : Nat) (m : CMap) (sep : String) (withLoader : Bool) :
    Nat → RState → Except PyErr (Option OutRow × RState)
  | 0, _ => .error .fuelOut
  | loopFuel + 1, st =>
    match st.rows with
    | [] =>
      -- `row is None`: close the cursor, emit the pending candidate if any
      let stClosed : RState := { st with cursorOpen := false }
      match st.current with
      | some cur => .ok (some (CRow.compile fuel withLoader cur), stClosed)
      | none => .ok (none, stClosed)
    | row :: rest =>
      let st1 : RState := { st with rows := rest }
      if st.disable_composition then
        .ok (some (applyMapLoader m withLoader row), st1)
      else
        match CRow.make fuel m (split_composite_row sep fuel row) with
        | .error e => .error e
        | .ok cr =>
          match st.current with
          | none =>
            if cr.is_composite = false then
              .ok (some (CRow.compile fuel withLoader cr),
                { st1 with disable_composition := true })
            else
              fetchLoop fuel m sep withLoader loopFuel { st1 with current := some cr }
          | some cur =>
            match CRow.merge fuel cur cr with
            | .error e => .error e
            | .ok ret =>
              if ret.toBool then
                -- `elif not self.current.merge(row):` false — keep accumulating;
                -- unreachable because both merge returns are falsy
                fetchLoop fuel m sep withLoader loopFuel
                  { st1 with current := some (ret.carrier cur) }
              else
                .ok (some (CRow.compile fuel withLoader (ret.carrier cur)),
                  { st1 with current := some cr })

/-- Embeds `CompositeResultSet.fetch(with_loader)`. -/
def CompositeResultSet.fetch (fuel : Nat) (m : CMap) (sep : String) (withLoader : Bool)
    (st : RState) : Except PyErr (Option OutRow × RState) :=
  if st.cursorOpen = false then .ok (none, st)
  else fetchLoop fuel m sep withLoader (st.rows.length + 1) st

/-- Embeds `CompositeResultSet.all()` (`list(self.__iter__())`). -/
def CompositeResultSet.all (depthFuel : Nat) (m : CMap) (sep : String) :
    Nat → RState → Except PyErr (List OutRow)
  | 0, _ => .error .fuelOut
  | fuel + 1, st =>
    match CompositeResultSet.fetch depthFuel m sep true st with
    | .error e => .error e
    | .ok (none, _) => .ok []
    | .ok (some r, st') =>
      match CompositeResultSet.all depthFuel m sep fuel st' with
      | .error e => .error e
      | .ok rs => .ok (r :: rs)

/-! ## Builder expressions

The node graphs of claim C2: everything the comparison/boolean operator
overloads of `SQLStr` can build. Raw operand values are drawn from an
assignment `σ` indexed by the hole number, so that two renderings of the
same graph under different assignments can be compared. -/

inductive BExpr where
  | frag (s : String)
  | cmp (e : BExpr) (operator : String) (hole : Nat)
  | cmpNode (e₁ : BExpr) (operator : String) (e₂ : BExpr)
  | andE (e₁ : BExpr) (e₂ : BExpr)
  | orE (e₁ : BExpr) (e₂ : BExpr)
  | notE (e : BExpr)

/-- Interpretation of a builder expression: a comparison against a raw
Python value goes through `SQLStr.op`, which embeds it as a `Parameter`
node; `&`, `|` and `~` build `And`, `Or` and `NOT` nodes. -/
def BExpr.denote {V : Type} (σ : Nat → V) : BExpr → SqlNode V
  | .frag s => .sql [.raw s]
  | .cmp e operator hole => SQLStr.op (BExpr.denote σ e) operator (.inl (σ hole))
  | .cmpNode e₁ operator e₂ => SQLStr.op (BExpr.denote σ e₁) operator (.inr (BExpr.denote σ e₂))
  | .andE e₁ e₂ => SqlAnd [BExpr.denote σ e₁, BExpr.denote σ e₂]
  | .orE e₁ e₂ => SqlOr [BExpr.denote σ e₁, BExpr.denote σ e₂]
  | .notE e => .sql [.raw "NOT", BExpr.denote σ e]

/-- The collector state visible to rendering: placeholder text only ever
depends on the paramstyle, the recorded names and the number of collected
positional values — never on the values themselves. -/
def PCRel {V : Type} (pc₁ pc₂ : ParameterCollector V) : Prop :=
  pc₁.paramstyle = pc₂.paramstyle ∧ pc₁.names = pc₂.names ∧
    pc₁.listValues.length = pc₂.listValues.length

/-! ## The scenario of claim C1

Statement `SELECT a.id, b.id AS kids__id FROM a LEFT JOIN b ON
b.a_id=a.id` over the row stream `[(1,10),(1,11),(2,NULL)]`, with the
composition map `self: a.id, nested kids: rowid kids.id, single False`. -/

/-- The composition map of the scenario. -/
def scenarioMap : CMap :=
  .mk none [("kids", .mk none [] (some "id") false)] (some "id") false

/-- The physical rows the cursor yields. -/
def scenarioRows : List Row :=
  [[("id", some (.int 1)), ("kids__id", some (.int 10))],
   [("id", some (.int 1)), ("kids__id", some (.int 11))],
   [("id", some (.int 2)), ("kids__id", none)]]

/-- The first logical entity the claim expects, `id=1` with children
`kids=[id=10, id=11]`. -/
def scenarioFirstEntity : OutRow :=
  [("id", .cell (some (.int 1))),
   ("kids", .many [[("id", .cell (some (.int 10)))], [("id", .cell (some (.int 11)))]])]

/-- The second logical entity the claim expects, `id=2` with `kids=[]`. -/
def scenarioSecondEntity : OutRow :=
  [("id", .cell (some (.int 2))), ("kids", .many [])]

/-! ## Supporting lemmas -/

theorem ofDigs_decDigitsAux : ∀ fuel n, n ≤ fuel → ofDigs (decDigitsAux fuel n) = n := by
  intro fuel
  induction fuel with
  | zero =>
    intro n hn
    have h0 : n = 0 := Nat.le_zero.mp hn
    subst h0
    simp [decDigitsAux, ofDigs]
  | succ f ih =>
    intro n hn
    by_cases h : n < 10
    · simp [decDigitsAux, h, ofDigs]
    · have hge : 10 ≤ n := Nat.le_of_not_lt h
      have hpos : 0 < n := Nat.lt_of_lt_of_le (by omega) hge
      have hdiv : n / 10 < n := Nat.div_lt_self hpos (by omega)
      have hle : n / 10 ≤ f := by omega
      simp only [decDigitsAux, if_neg h, ofDigs, ih (n / 10) hle]
      omega

theorem ofDigs_decDigits (n : Nat) : ofDigs (decDigits n) = n :=
  ofDigs_decDigitsAux n n (Nat.le_refl n)

theorem decDigits_injective : Function.Injective decDigits := by
  intro a b h
  have := congrArg ofDigs h
  rwa [ofDigs_decDigits, ofDigs_decDigits] at this

theorem decDigitsAux_lt : ∀ fuel n, n ≤ fuel → ∀ d ∈ decDigitsAux fuel n, d < 10 := by
  intro fuel
  induction fuel with
  | zero =>
    intro n hn d hd
    have h0 : n = 0 := Nat.le_zero.mp hn
    subst h0
    simp [decDigitsAux] at hd
    omega
  | succ f ih =>
    intro n hn d hd
    by_cases h : n < 10
    · simp [decDigitsAux, h] at hd
      omega
    · simp only [decDigitsAux, if_neg h] at hd
      rcases List.mem_cons.mp hd with h1 | h2
      · subst h1; exact Nat.mod_lt n (by omega)
      · have hge : 10 ≤ n := Nat.le_of_not_lt h
        have hdiv : n / 10 < n := Nat.div_lt_self (by omega) (by omega)
        exact ih (n / 10) (by omega) d h2

theorem decDigits_lt (n : Nat) : ∀ d ∈ decDigits n, d < 10 :=
  decDigitsAux_lt n n (Nat.le_refl n)

theorem digitVal_digitChar : ∀ d, d < 10 → digitVal (digitChar d) = d := by
  intro d hd
  interval_cases d <;> rfl

theorem digitChar_inj_on {a b : Nat} (ha : a < 10) (hb : b < 10)
    (h : digitChar a = digitChar b) : a = b := by
  have := congrArg digitVal h
  rwa [digitVal_digitChar a ha, digitVal_digitChar b hb] at this

theorem map_digitChar_inj : ∀ (l₁ l₂ : List Nat), (∀ d ∈ l₁, d < 10) → (∀ d ∈ l₂, d < 10) →
    l₁.map digitChar = l₂.map digitChar → l₁ = l₂ := by
  intro l₁
  induction l₁ with
  | nil =>
    intro l₂ _ _ h
    cases l₂ with
    | nil => rfl
    | cons b bs => simp at h
  | cons a as ih =>
    intro l₂ h₁ h₂ h
    cases l₂ with
    | nil => simp at h
    | cons b bs =>
      simp only [List.map_cons, List.cons.injEq] at h
      have hab : a = b :=
        digitChar_inj_on (h₁ a (List.mem_cons_self a as)) (h₂ b (List.mem_cons_self b bs)) h.1
      have hrest : as = bs := by
        refine ih bs (fun d hd => h₁ d (List.mem_cons_of_mem a hd))
          (fun d hd => h₂ d (List.mem_cons_of_mem b hd)) h.2
      rw [hab, hrest]

theorem natDec_injective : Function.Injective natDec := by
  intro a b h
  have hdata : ((decDigits a).reverse.map digitChar) = ((decDigits b).reverse.map digitChar) := by
    have := congrArg String.data h
    simpa [natDec] using this
  have hrev : (decDigits a).reverse = (decDigits b).reverse := by
    refine map_digitChar_inj _ _ ?_ ?_ hdata
    · intro d hd; exact decDigits_lt a d (List.mem_reverse.mp hd)
    · intro d hd; exact decDigits_lt b d (List.mem_reverse.mp hd)
  exact decDigits_injective (List.reverse_injective hrev)

theorem suffixName_inj (base : String) {i j : Nat} (h : suffixName base i = suffixName base j) :
    i = j := by
  have hdata := congrArg String.data h
  simp only [suffixName] at hdata
  have hij : (natDec i).data = (natDec j).data := by
    have h1 : (base ++ "_" ++ natDec i).data = base.data ++ "_".data ++ (natDec i).data := by
      simp [String.data_append]
    have h2 : (base ++ "_" ++ natDec j).data = base.data ++ "_".data ++ (natDec j).data := by
      simp [String.data_append]
    rw [h1, h2] at hdata
    exact List.append_cancel_left hdata
  have : natDec i = natDec j := by
    cases hni : natDec i with
    | mk d1 =>
      cases hnj : natDec j with
      | mk d2 =>
        rw [hni, hnj] at hij
        simp at hij
        simp [hij]
  exact natDec_injective this

theorem exists_fresh_suffix (base : String) (names : List String) :
    ∃ j, j < names.length + 1 ∧ suffixName base (1 + j) ∉ names := by
  by_contra hcon
  push_neg at hcon
  have hmaps : ∀ j ∈ Finset.range (names.length + 1),
      suffixName base (1 + j) ∈ names.toFinset := by
    intro j hj
    rw [List.mem_toFinset]
    exact hcon j (Finset.mem_range.mp hj)
  have hinj : ∀ j₁ ∈ Finset.range (names.length + 1), ∀ j₂ ∈ Finset.range (names.length + 1),
      suffixName base (1 + j₁) = suffixName base (1 + j₂) → j₁ = j₂ := by
    intro j₁ _ j₂ _ h
    have := suffixName_inj base h
    omega
  have hcard := Finset.card_le_card_of_injOn (fun j => suffixName base (1 + j)) hmaps hinj
  rw [Finset.card_range] at hcard
  have := names.toFinset_card_le
  omega

theorem findSuffix_not_mem (base : String) (names : List String) :
    ∀ fuel i, (∃ j, j < fuel ∧ suffixName base (i + j) ∉ names) →
      suffixName base (findSuffix base names i fuel) ∉ names := by
  intro fuel
  induction fuel with
  | zero =>
    intro i ⟨j, hj, _⟩
    omega
  | succ f ih =>
    intro i ⟨j, hj, hfree⟩
    by_cases hmem : suffixName base i ∈ names
    · simp only [findSuffix, if_pos hmem]
      refine ih (i + 1) ?_
      have hj0 : j ≠ 0 := by
        intro h0
        subst h0
        simp at hfree
        exact hfree hmem
      exact ⟨j - 1, by omega, by
        have : i + 1 + (j - 1) = i + j := by omega
        rwa [this]⟩
    · simpa only [findSuffix, if_neg hmem] using hmem

theorem freshName_not_mem (base : String) (names : List String) :
    freshName base names ∉ names := by
  obtain ⟨j, hj, hfree⟩ := exists_fresh_suffix base names
  exact findSuffix_not_mem base names (names.length + 1) 1 ⟨j, hj, hfree⟩

/-- One `add` call returns the same placeholder text for any two values,
and keeps the collectors related. -/
theorem add_congr {V : Type} (pc₁ pc₂ : ParameterCollector V) (v₁ v₂ : V) (nm : Option String)
    (h : PCRel pc₁ pc₂) :
    (pc₁.add v₁ nm).1 = (pc₂.add v₂ nm).1 ∧ PCRel (pc₁.add v₁ nm).2 (pc₂.add v₂ nm).2 := by
  obtain ⟨hps, hn, hl⟩ := h
  unfold ParameterCollector.add PCRel
  simp only [hn, hps]
  by_cases hpos : pc₂.paramstyle.positional
  · simp [hpos, hl]
  · simp [hpos, hl]

/-- Rendering a raw part returns its text (or nothing at fuel zero) and
leaves the collector untouched. -/
theorem render1_raw {V : Type} (fuel : Nat) (s : String) (pc : ParameterCollector V) :
    render1 fuel (.raw s) pc = (if fuel = 0 then "" else s, pc) := by
  cases fuel <;> rfl

/-- Rendering a parameter node produces the same text on related
collectors, whatever the two values are. -/
theorem render1_param_congr {V : Type} (fuel : Nat) (v₁ v₂ : V) (nm : Option String)
    (pc₁ pc₂ : ParameterCollector V) (h : PCRel pc₁ pc₂) :
    (render1 fuel (.param v₁ nm) pc₁).1 = (render1 fuel (.param v₂ nm) pc₂).1 ∧
      PCRel (render1 fuel (.param v₁ nm) pc₁).2 (render1 fuel (.param v₂ nm) pc₂).2 := by
  cases fuel with
  | zero => exact ⟨rfl, h⟩
  | succ f => exact add_congr pc₁ pc₂ v₁ v₂ nm h

/-- Value-independence of rendering for every operator-built node graph:
two assignments of the raw operand values produce the same statement text
from related collectors, and leave the collectors related. -/
theorem denote_render_congr {V : Type} (e : BExpr) : ∀ (fuel : Nat) (σ₁ σ₂ : Nat → V)
    (pc₁ pc₂ : ParameterCollector V), PCRel pc₁ pc₂ →
    (render1 fuel (BExpr.denote σ₁ e) pc₁).1 = (render1 fuel (BExpr.denote σ₂ e) pc₂).1 ∧
      PCRel (render1 fuel (BExpr.denote σ₁ e) pc₁).2 (render1 fuel (BExpr.denote σ₂ e) pc₂).2 := by
  induction e with
  | frag s =>
    intro fuel σ₁ σ₂ pc₁ pc₂ h
    cases fuel with
    | zero => exact ⟨rfl, h⟩
    | succ f =>
      simp only [BExpr.denote, render1, renderParts, render1_raw]
      exact ⟨trivial, h⟩
  | cmp e operator hole ih =>
    intro fuel σ₁ σ₂ pc₁ pc₂ h
    cases fuel with
    | zero => exact ⟨rfl, h⟩
    | succ f =>
      simp only [BExpr.denote, SQLStr.op, render1, renderParts, render1_raw]
      obtain ⟨he, hrel⟩ := ih f σ₁ σ₂ pc₁ pc₂ h
      obtain ⟨hp, hrel₂⟩ := render1_param_congr f (σ₁ hole) (σ₂ hole) none _ _ hrel
      exact ⟨by rw [he, hp], hrel₂⟩
  | cmpNode e₁ operator e₂ ih₁ ih₂ =>
    intro fuel σ₁ σ₂ pc₁ pc₂ h
    cases fuel with
    | zero => exact ⟨rfl, h⟩
    | succ f =>
      simp only [BExpr.denote, SQLStr.op, render1, renderParts, render1_raw]
      obtain ⟨he₁, hrel₁⟩ := ih₁ f σ₁ σ₂ pc₁ pc₂ h
      obtain ⟨he₂, hrel₂⟩ := ih₂ f σ₁ σ₂ _ _ hrel₁
      exact ⟨by rw [he₁, he₂], hrel₂⟩
  | andE e₁ e₂ ih₁ ih₂ =>
    intro fuel σ₁ σ₂ pc₁ pc₂ h
    cases fuel with
    | zero => exact ⟨rfl, h⟩
    | succ f =>
      simp only [BExpr.denote, SqlAnd, render1, renderParts]
      obtain ⟨he₁, hrel₁⟩ := ih₁ f σ₁ σ₂ pc₁ pc₂ h
      obtain ⟨he₂, hrel₂⟩ := ih₂ f σ₁ σ₂ _ _ hrel₁
      exact ⟨by rw [he₁, he₂], hrel₂⟩
  | orE e₁ e₂ ih₁ ih₂ =>
    intro fuel σ₁ σ₂ pc₁ pc₂ h
    cases fuel with
    | zero => exact ⟨rfl, h⟩
    | succ f =>
      simp only [BExpr.denote, SqlOr, render1, renderParts]
      obtain ⟨he₁, hrel₁⟩ := ih₁ f σ₁ σ₂ pc₁ pc₂ h
      obtain ⟨he₂, hrel₂⟩ := ih₂ f σ₁ σ₂ _ _ hrel₁
      exact ⟨by rw [he₁, he₂], hrel₂⟩
  | notE e ih =>
    intro fuel σ₁ σ₂ pc₁ pc₂ h
    cases fuel with
    | zero => exact ⟨rfl, h⟩
    | succ f =>
      simp only [BExpr.denote, render1, renderParts, render1_raw]
      obtain ⟨he, hrel⟩ := ih f σ₁ σ₂ pc₁ pc₂ h
      exact ⟨by rw [he], hrel⟩

/-- The name recorded by one `add` call is never already present, so the
names stay pairwise distinct. -/
theorem add_names_nodup {V : Type} (pc : ParameterCollector V) (value : V)
    (name : Option String) (h : pc.names.Nodup) :
    ((pc.add value name).2).names.Nodup := by
  have hchosen : ∀ chosen : String, chosen ∉ pc.names → (pc.names ++ [chosen]).Nodup := by
    intro chosen hc
    refine List.Nodup.append h (List.nodup_singleton chosen) ?_
    intro a ha hb
    rw [List.mem_singleton] at hb
    subst hb
    exact hc ha
  unfold ParameterCollector.add
  set base := name.getD "" with hbase
  by_cases hcond : base = "" ∨ base ∈ pc.names
  · simp only [hcond, if_true]
    have hfree := freshName_not_mem (if base = "" then "param" else base) pc.names
    by_cases hpos : pc.paramstyle.positional <;>
      simp only [hpos, if_true, if_false, Bool.false_eq_true] <;>
      exact hchosen _ hfree
  · simp only [hcond, if_false]
    have hnot : base ∉ pc.names := fun hmem => hcond (Or.inr hmem)
    by_cases hpos : pc.paramstyle.positional <;>
      simp only [hpos, if_true, if_false, Bool.false_eq_true] <;>
      exact hchosen _ hnot

/-! ## The claims -/

/-- C2: for every SQL node graph built by the comparison/boolean operator
overloads over raw operand values, rendering never interpolates a value
into the statement text — the text is identical for any two choices of the
operand values, and a non-SQL operand enters the graph only as a
`Parameter` node (the placeholder channel). -/
theorem claimC2_render_never_interpolates {V : Type} (e : BExpr) (σ₁ σ₂ : Nat → V)
    (fuel : Nat) (ps : Paramstyle) :
    (render1 fuel (BExpr.denote σ₁ e) (ParameterCollector.fresh V ps)).1 =
      (render1 fuel (BExpr.denote σ₂ e) (ParameterCollector.fresh V ps)).1 ∧
    (∀ (a : SqlNode V) (operator : String) (v : V),
      SQLStr.op a operator (.inl v) = .sql [a, .raw operator, .param v none]) :=
  ⟨(denote_render_congr e fuel σ₁ σ₂ _ _ ⟨rfl, rfl, rfl⟩).1, fun _ _ _ => rfl⟩

/-- C3 counterexample: `And([])` and `Or([])` do not render to the empty
string — `List._render` appends the wrapping parentheses unconditionally,
so they render to a parenthesized string. -/
theorem claimC3_counterexample :
    ¬ ((SqlNode.render 10 (SqlAnd ([] : List (SqlNode Nat)))).1 = "" ∧
      (SqlNode.render 10 (SqlOr ([] : List (SqlNode Nat)))).1 = "") := by
  decide

/-- C3 (amended): `And([])` and `Or([])` are falsy (they are empty lists),
so conditionally appending a WHERE clause with a plain truthiness check
skips empty combinators; but when rendered anyway they produce the
parenthesized string "( )", not an empty string. -/
theorem claimC3_empty_combinators :
    (∀ (V : Type), SqlNode.truthy (SqlAnd ([] : List (SqlNode V))) = false) ∧
    (∀ (V : Type), SqlNode.truthy (SqlOr ([] : List (SqlNode V))) = false) ∧
    (∀ (V : Type) (q : SqlNode V), whereIfTruthy q (SqlAnd []) = q) ∧
    (∀ (V : Type) (q : SqlNode V), whereIfTruthy q (SqlOr []) = q) ∧
    (SqlNode.render 10 (SqlAnd ([] : List (SqlNode Nat)))).1 = "( )" ∧
    (SqlNode.render 10 (SqlOr ([] : List (SqlNode Nat)))).1 = "( )" :=
  ⟨fun _ => rfl, fun _ => rfl, fun _ _ => rfl, fun _ _ => rfl, by decide, by decide⟩

/-- C7 counterexample: the first `add` on a fresh numeric-style collector
returns the placeholder ":1", not ":0" — the position markers are not
0-based. -/
theorem claimC7_counterexample :
    ((ParameterCollector.fresh Nat .numeric).add 7 none).1 = ":1" ∧ (":1" : String) ≠ ":0" := by
  decide

/-- C7 (amended): under the numeric paramstyle the placeholders produced by
successive `add` calls are 1-based position markers — an `add` on a
collector already holding n values returns ":" followed by n+1, so a fresh
collector yields ":1", then ":2", and so on. -/
theorem claimC7_numeric_placeholders {V : Type} (pc : ParameterCollector V) (v : V)
    (nm : Option String) (h : pc.paramstyle = .numeric) :
    (pc.add v nm).1 = ":" ++ natDec (pc.listValues.length + 1) := by
  unfold ParameterCollector.add
  simp [h, Paramstyle.positional, format_param, PName.interp]

/-- C7 witness: the amended theorem evaluated on a fresh numeric collector. -/
theorem claimC7_witness : ((ParameterCollector.fresh Nat .numeric).add 7 none).1 = ":1" := by
  rw [claimC7_numeric_placeholders (ParameterCollector.fresh Nat .numeric) 7 none rfl]
  decide

/-- C8 counterexample: re-adding the name "n" records the auto-suffixed
name "n_1", not "n_2" — the suffix sequence starts at 1. -/
theorem claimC8_counterexample :
    ((((ParameterCollector.fresh Nat .named).add 0 (some "n")).2).add 1 (some "n")).2.names
      = ["n", "n_1"] ∧ ("n_1" : String) ≠ "n_2" := by
  decide

/-- C8 (amended): for every sequence of `add` calls the recorded parameter
names are pairwise distinct, and adding a value under a name already
present assigns the auto-suffixed names `name_1`, then `name_2`, and so
on, in order. -/
theorem claimC8_unique_names :
    (∀ (V : Type) (pc : ParameterCollector V) (v : V) (nm : Option String),
      pc.names.Nodup → ((pc.add v nm).2).names.Nodup) ∧
    (((((((ParameterCollector.fresh Nat .named).add 0 (some "n")).2).add 1
        (some "n")).2).add 2 (some "n")).2).names = ["n", "n_1", "n_2"] :=
  ⟨fun _ pc v nm h => add_names_nodup pc v nm h, by decide⟩

/-- C8 witness: the amended theorem applied to a one-name collector. -/
theorem claimC8_witness :
    ((((ParameterCollector.fresh Nat .named).add 0 (some "n")).2).add 1 (some "n")).2.names.Nodup :=
  claimC8_unique_names.1 Nat ((ParameterCollector.fresh Nat .named).add 0 (some "n")).2 1
    (some "n") (by decide)

/-- C9 counterexample: the insert builder given an empty mapping does not
skip producing a statement — it emits `INSERT INTO t DEFAULT VALUES`. -/
theorem claimC9_counterexample :
    (SqlNode.render 10 (Mapper.insert "t" ([] : List (String × (Nat ⊕ SqlNode Nat))))).1
      = "INSERT INTO t DEFAULT VALUES" ∧
    ("INSERT INTO t DEFAULT VALUES" : String) ≠ "" := by
  decide

/-- C9 (amended): on an empty name-to-value mapping the update and delete
mapper builders signal nothing-to-do by returning no statement, and values
that are SQL nodes are spliced raw (no parameter is collected); the insert
builder however emits an `INSERT INTO ... DEFAULT VALUES` statement
instead of skipping. -/
theorem claimC9_empty_values_builders :
    (∀ (V : Type) (table : String) (pkCond : SqlNode V),
      Mapper.update table [] pkCond = none) ∧
    (∀ (V : Type) (table : String) (pkCond : SqlNode V),
      Mapper.delete table none pkCond = none) ∧
    (SqlNode.render 10 (Mapper.insert "t" ([] : List (String × (Nat ⊕ SqlNode Nat))))
      = ("INSERT INTO t DEFAULT VALUES", [])) ∧
    (SqlNode.render 10 (SQL.update "t"
        (some [("c", (Sum.inr (SqlNode.raw "x + 1") : Nat ⊕ SqlNode Nat))]))
      = ("UPDATE t SET c = x + 1", [])) :=
  ⟨fun _ _ _ => rfl, fun _ _ _ => rfl, by decide, by decide⟩

/-- C4: with pooling enabled and max_pool_conns=2 the first two connects
succeed, a third connect with no intervening disconnect fails with the
capacity error, and after one disconnect the next connect returns the
freed pooled connection without creating a new physical connection (the
connection counter stays at 2). -/
theorem claimC4_pool_capacity :
    Engine.connect (Engine.make true 2) true = .ok (0, ⟨some [], [0], 2, 1⟩) ∧
    Engine.connect ⟨some [], [0], 2, 1⟩ true = .ok (1, ⟨some [], [0, 1], 2, 2⟩) ∧
    Engine.connect ⟨some [], [0, 1], 2, 2⟩ true = .error .maxConnectionsReached ∧
    Engine.disconnect ⟨some [], [0, 1], 2, 2⟩ 0 false = .ok ⟨some [0], [1], 2, 2⟩ ∧
    Engine.connect ⟨some [0], [1], 2, 2⟩ true = .ok (0, ⟨some [], [1, 0], 2, 2⟩) :=
  ⟨rfl, rfl, rfl, rfl, rfl⟩

/-- C5: entering a transaction while the session stack is non-empty yields
a virtual transaction regardless of caller intent; ending a virtual
transaction performs no physical commit or rollback; and whenever ending a
transaction does perform a physical operation, that transaction was
non-virtual (the outermost one). -/
theorem claimC5_nested_virtual :
    (∀ (s : Session) (v : Bool) (tx : Transaction) (s' : Session),
      s.transactions ≠ [] → Session.enter s v = .ok (tx, s') → tx.virtual = true) ∧
    (∀ (tx : Transaction) (s : Session) (hook : Bool) (tx' : Transaction) (ops : List PhysOp),
      tx.virtual = true → Transaction.commit tx s hook = .ok (tx', ops) → ops = []) ∧
    (∀ (tx : Transaction) (s : Session) (hook : Bool) (tx' : Transaction) (ops : List PhysOp),
      tx.virtual = true → Transaction.rollback tx s hook = .ok (tx', ops) → ops = []) ∧
    (∀ (tx : Transaction) (s : Session) (hook : Bool) (tx' : Transaction) (ops : List PhysOp),
      Transaction.commit tx s hook = .ok (tx', ops) → ops ≠ [] → tx.virtual = false) ∧
    (∀ (tx : Transaction) (s : Session) (hook : Bool) (tx' : Transaction) (ops : List PhysOp),
      Transaction.rollback tx s hook = .ok (tx', ops) → ops ≠ [] → tx.virtual = false) := by
  refine ⟨?_, ?_, ?_, ?_, ?_⟩
  · intro s v tx s' hne h
    have hempty : s.transactions.isEmpty = false := by
      cases htxs : s.transactions with
      | nil => exact absurd htxs hne
      | cons a l => rfl
    unfold Session.enter at h
    by_cases he : s.ended
    · rw [if_pos he] at h
      exact Except.noConfusion h
    · rw [if_neg he] at h
      have htx : Transaction.mk (v || s.virtual_tx || !s.transactions.isEmpty) false = tx := by
        have hfst := congrArg (fun x => Except.map Prod.fst x) h
        simpa [Except.map] using hfst
      rw [← htx]
      simp [hempty]
  · intro tx s hook tx' ops hv h
    unfold Transaction.commit at h
    by_cases he : tx.ended
    · rw [if_pos he] at h
      exact Except.noConfusion h
    · rw [if_neg he, if_pos hv] at h
      injection h with hpair
      have hsnd := congrArg Prod.snd hpair
      simpa using hsnd.symm
  · intro tx s hook tx' ops hv h
    unfold Transaction.rollback at h
    by_cases he : tx.ended
    · rw [if_pos he] at h
      exact Except.noConfusion h
    · rw [if_neg he, if_pos hv] at h
      injection h with hpair
      have hsnd := congrArg Prod.snd hpair
      simpa using hsnd.symm
  · intro tx s hook tx' ops h hops
    by_cases hv : tx.virtual
    · exfalso
      apply hops
      unfold Transaction.commit at h
      by_cases he : tx.ended
      · rw [if_pos he] at h
        exact Except.noConfusion h
      · rw [if_neg he, if_pos hv] at h
        injection h with hpair
        have hsnd := congrArg Prod.snd hpair
        simpa using hsnd.symm
    · simpa using hv
  · intro tx s hook tx' ops h hops
    by_cases hv : tx.virtual
    · exfalso
      apply hops
      unfold Transaction.rollback at h
      by_cases he : tx.ended
      · rw [if_pos he] at h
        exact Except.noConfusion h
      · rw [if_neg he, if_pos hv] at h
        injection h with hpair
        have hsnd := congrArg Prod.snd hpair
        simpa using hsnd.symm
    · simpa using hv


/-- C5 witness: the theorem applied to a session holding one transaction
and to a fresh virtual transaction. -/
theorem claimC5_witness :
    (Transaction.mk true false).virtual = true ∧ (([] : List PhysOp) = []) := by
  constructor
  · exact claimC5_nested_virtual.1 ⟨some 0, false, false, [⟨false, false⟩], false⟩ false
      ⟨true, false⟩ ⟨some 0, false, false, [⟨false, false⟩, ⟨true, false⟩], false⟩
      (by decide) rfl
  · exact claimC5_nested_virtual.2.1 ⟨true, false⟩ ⟨some 0, false, false, [], false⟩ false
      ⟨true, true⟩ [] rfl rfl

/-- C6 counterexample: with a before-execute hook returning False,
`Transaction.cursor` still renders and executes the statement against the
driver instead of returning a sentinel. -/
theorem claimC6_counterexample :
    Transaction.cursor 10 false (some (SQLStr.op (.sql [.raw "col"]) "=" (Sum.inl (5 : Nat))))
      none [SigRV.retFalse] = .ok (.executed "col = ?" [5]) ∧
    cursorExecuted (Transaction.cursor 10 false
      (some (SQLStr.op (.sql [.raw "col"]) "=" (Sum.inl (5 : Nat))))
      none [SigRV.retFalse]) = true :=
  ⟨rfl, rfl⟩

/-- C6 (amended): a False return from a before-execute hook cancels only
`Transaction.executemany` (which returns without executing, before even
the ended check); `Transaction.cursor` executes the rendered statement
anyway on a False return, and is short-circuited into a sentinel only by a
truthy non-tuple hook return. -/
theorem claimC6_false_hook {V : Type} :
    (∀ (txEnded : Bool) (stmt : String) (seq : List (List V))
        (hooks : List (SigRV (String × List (List V)))),
      signal_rv hooks = .retFalse → Transaction.executemany txEnded stmt seq hooks = .ok none) ∧
    (∀ (fuel : Nat) (stmt : SqlNode V) (params : Option (List V))
        (hooks : List (SigRV (String × List V))),
      signal_rv hooks = .retFalse →
        Transaction.cursor fuel false (some stmt) params hooks =
          .ok (.executed (renderForCursor fuel stmt params).1
            (renderForCursor fuel stmt params).2)) ∧
    (∀ (fuel : Nat) (stmt : SqlNode V) (params : Option (List V))
        (hooks : List (SigRV (String × List V))) (n : Nat),
      signal_rv hooks = .retValue n →
        Transaction.cursor fuel false (some stmt) params hooks = .ok (.sentinel n)) := by
  refine ⟨?_, ?_, ?_⟩
  · intro txEnded stmt seq hooks h
    unfold Transaction.executemany
    rw [h]
  · intro fuel stmt params hooks h
    unfold Transaction.cursor
    rw [h]
    rfl
  · intro fuel stmt params hooks n h
    unfold Transaction.cursor
    rw [h]
    rfl

/-- C6 witness: the amended theorem evaluated on a singleton False hook. -/
theorem claimC6_witness :
    Transaction.executemany false "s" ([] : List (List Nat)) [SigRV.retFalse] = .ok none :=
  (@claimC6_false_hook Nat).1 false "s" [] [SigRV.retFalse] rfl

/-- C10: closing a session built over an externally supplied connection
with auto_close_conn=False keeps the connection attached while marking the
session ended, so a second close call raises SessionEndedError from its
rollback attempt instead of being a no-op. -/
theorem claimC10_double_close (c : Nat) (hook1 hook2 : Bool) :
    ∃ s' ops, Session.close (Session.make (some c) (some false) false) hook1 = .ok (s', ops) ∧
      s'.conn = some c ∧ s'.ended = true ∧
      Session.close s' hook2 = .error .sessionEnded := by
  cases hook1 <;> exact ⟨_, _, rfl, rfl, rfl, rfl⟩

/-- C1: on the scenario statement and row stream the reconstructor crashes
instead of producing the two claimed entities: the first fetch emits the
id=1 entity with kids=[10,11] only because the success-path merge mutated
the pending candidate before being treated as a failure (merge returns
None, which the fetch loop reads as falsy), and the following fetch raises
KeyError on the dropped all-NULL kids group of the id=2 row, so fetching
all rows errors out instead of yielding the id=2, kids=[] entity. -/
theorem claimC1_composite_scenario_crashes :
    CompositeResultSet.all 10 scenarioMap "__" 5 (RState.init scenarioRows)
      = .error (.keyError "kids") ∧
    Except.map Prod.fst
      (CompositeResultSet.fetch 10 scenarioMap "__" true (RState.init scenarioRows))
      = .ok (some scenarioFirstEntity) ∧
    (∃ st1, CompositeResultSet.fetch 10 scenarioMap "__" true (RState.init scenarioRows)
        = .ok (some scenarioFirstEntity, st1) ∧
      CompositeResultSet.fetch 10 scenarioMap "__" true st1 = .error (.keyError "kids")) :=
  ⟨rfl, rfl, ⟨_, rfl, rfl⟩⟩

end Sqlorm
